import Mathlib

/-!
# Verification of the orbit-project autopilot core

Shallow embedding of the satellite-autopilot guidance code (orbital element
calculator, perturbation models, burn queue, fuel gating, Hohmann planner,
guidance controllers) and proofs of the behavioural claims about it.

JavaScript numbers are modelled as real numbers `ℝ`; `Math.sqrt`, `Math.exp`,
`Math.atan2` and `Math.PI` are modelled by `Real.sqrt`, `Real.exp`,
`Complex.arg` and `Real.pi`.  The repository contains several iterations of
the controller; each is embedded under its own namespace:

* `Final`    — the "FINAL FIXED 4-DOF" controller (third source part);
* `Advanced` — the "ADVANCED NASA-GRADE" controller with fuel management
               (second class of the second source part);
* `Perfect`  — the "PERFECT 4-DOF" controller (first class of the second
               source part), whose perturbation models are shared;
* `PID`      — the PID-based autopilot (first source part);
* `Hohmann`  — the Hohmann transfer planner.
-/

set_option maxHeartbeats 1000000

noncomputable section

namespace Orbit

/-- A 2D vector with real components, as the `{x, y}` objects of the source. -/
structure Vec2 where
  x : ℝ
  y : ℝ
deriving DecidableEq

/-- An orbital state: `state.pos` and `state.vel` as passed to the autopilot. -/
structure OrbState where
  pos : Vec2
  vel : Vec2

/-- Standard gravitational parameter `mu = 3.986004418e14` used throughout. -/
def mu : ℝ := 3.986004418e14

/-- `earthRadius = 6371000` metres, as in the source. -/
def earthRadius : ℝ := 6371000

/-- `Math.hypot x y`. -/
def hypot (x y : ℝ) : ℝ := Real.sqrt (x * x + y * y)

/-- `Math.atan2 y x`, modelled as the argument of the complex number `x + y i`
(range `(-pi, pi]`, `atan2 0 0 = 0`, matching JavaScript). -/
def atan2 (y x : ℝ) : ℝ := Complex.arg ⟨x, y⟩

/-- The vis-viva energy `v2/2 - mu/r` computed at the top of
`getEccentricity` / `getSMA` in every controller variant. -/
def energyOf (s : OrbState) : ℝ :=
  (s.vel.x ^ 2 + s.vel.y ^ 2) / 2 - mu / hypot s.pos.x s.pos.y

/-- The absolute specific angular momentum
`h = |pos.x * vel.y - pos.y * vel.x|` of `getEccentricity`. -/
def hOf (s : OrbState) : ℝ := |s.pos.x * s.vel.y - s.pos.y * s.vel.x|

namespace Final

/-- `getEccentricity` of the final controller (identical in the other
controller classes): returns the sentinel `1.0` when `energy >= 0`, otherwise
`sqrt (max 0 (1 - p / a))` with `a = -mu / (2 energy)`, `p = h^2 / mu`. -/
def getEccentricity (s : OrbState) : ℝ :=
  if 0 ≤ energyOf s then 1
  else
    Real.sqrt (max 0 (1 - (hOf s * hOf s / mu) / (-mu / (2 * energyOf s))))

/-- `getSMA`: the semi-major axis `-mu / (2 energy)`, or the current radius
`r` when `energy >= 0`. -/
def getSMA (s : OrbState) : ℝ :=
  if 0 ≤ energyOf s then hypot s.pos.x s.pos.y
  else -mu / (2 * energyOf s)

end Final

/-- The result record of `HohmannPlanner.planTransfer`. -/
structure Transfer where
  totalDv : ℝ
  circBurn : ℝ
  apoBurn : ℝ
  transferTime : ℝ
  a_transfer : ℝ

namespace Hohmann

/-- `HohmannPlanner.planTransfer(r1, r2, mu)`: `null` when `r1 >= r2`,
otherwise the two-impulse transfer computed from vis-viva at both radii and
at the transfer ellipse. -/
def planTransfer (r1 r2 m : ℝ) : Option Transfer :=
  if r1 ≥ r2 then none
  else
    let a_transfer := (r1 + r2) / 2
    let v1 := Real.sqrt (m / r1)
    let v2 := Real.sqrt (m / r2)
    let v_t1 := Real.sqrt (m * (2 / r1 - 1 / a_transfer))
    let v_t2 := Real.sqrt (m * (2 / r2 - 1 / a_transfer))
    let circBurn := |v_t1 - v1|
    let apoBurn := |v2 - v_t2|
    some ⟨circBurn + apoBurn, circBurn, apoBurn,
      Real.pi * Real.sqrt (a_transfer ^ 3 / m), a_transfer⟩

end Hohmann

/-! ## C1 — eccentricity range and the hyperbolic sentinel -/

/-- C1, counterexample: at a state with vis-viva energy `>= 0` the element
calculator returns the eccentricity value `1`, rather than signalling an
`OutOfBoundsOrbit` condition.  (State: `pos = (mu, 0)`, `vel = (2, 0)`, whose
energy is `2 - mu/mu = 1 >= 0`.) -/
theorem getEccentricity_hyperbolic_returns_one :
    Final.getEccentricity ⟨⟨3.986004418e14, 0⟩, ⟨2, 0⟩⟩ = 1 := by
  have hr : hypot (3.986004418e14 : ℝ) 0 = 3.986004418e14 := by
    unfold hypot
    rw [show (3.986004418e14 : ℝ) * 3.986004418e14 + 0 * 0
          = 3.986004418e14 * 3.986004418e14 by ring]
    exact Real.sqrt_mul_self (by norm_num)
  have hE : energyOf ⟨⟨3.986004418e14, 0⟩, ⟨2, 0⟩⟩ = 1 := by
    unfold energyOf
    simp only [hr]
    rw [mu]
    norm_num
  unfold Final.getEccentricity
  rw [hE]
  norm_num

/-- C1 (amended): for every state with `energy >= 0` the calculator returns
the sentinel eccentricity `1` (no `OutOfBoundsOrbit` condition is signalled);
for every bound-orbit state (`energy < 0`, nonzero angular momentum) the
returned eccentricity lies in `[0, 1)`. -/
theorem getEccentricity_range (s : OrbState) :
    (0 ≤ energyOf s → Final.getEccentricity s = 1) ∧
    (energyOf s < 0 → hOf s ≠ 0 →
      Final.getEccentricity s ∈ Set.Ico (0 : ℝ) 1) := by
  constructor
  · intro h
    unfold Final.getEccentricity
    rw [if_pos h]
  · intro hE hh
    have hmu : (0 : ℝ) < mu := by rw [mu]; norm_num
    have ha : 0 < -mu / (2 * energyOf s) := by
      rw [div_pos_iff]
      right
      constructor
      · linarith
      · linarith
    have hp : 0 < hOf s * hOf s / mu := by
      have : 0 < hOf s := lt_of_le_of_ne (abs_nonneg _) (Ne.symm hh)
      positivity
    have hfrac : 0 < (hOf s * hOf s / mu) / (-mu / (2 * energyOf s)) :=
      div_pos hp ha
    unfold Final.getEccentricity
    rw [if_neg (not_le.mpr hE)]
    constructor
    · exact Real.sqrt_nonneg _
    · calc Real.sqrt (max 0 (1 - (hOf s * hOf s / mu) / (-mu / (2 * energyOf s))))
          < Real.sqrt 1 := by
            apply Real.sqrt_lt_sqrt (le_max_left _ _)
            apply max_lt one_pos
            linarith
        _ = 1 := Real.sqrt_one

/-- C1 witness: a concrete bound-orbit state (`pos = (1e7, 0)`,
`vel = (0, 1000)`) has negative energy and nonzero angular momentum, and its
eccentricity lies in `[0, 1)`. -/
theorem getEccentricity_range_witness :
    energyOf ⟨⟨1e7, 0⟩, ⟨0, 1000⟩⟩ < 0 ∧ hOf ⟨⟨1e7, 0⟩, ⟨0, 1000⟩⟩ ≠ 0 ∧
    Final.getEccentricity ⟨⟨1e7, 0⟩, ⟨0, 1000⟩⟩ ∈ Set.Ico (0 : ℝ) 1 := by
  have hr : hypot (1e7 : ℝ) 0 = 1e7 := by
    unfold hypot
    rw [show (1e7 : ℝ) * 1e7 + 0 * 0 = 1e7 * 1e7 by ring]
    exact Real.sqrt_mul_self (by norm_num)
  have hE : energyOf ⟨⟨1e7, 0⟩, ⟨0, 1000⟩⟩ < 0 := by
    unfold energyOf
    simp only [hr]
    rw [mu]
    norm_num
  have hh : hOf ⟨⟨1e7, 0⟩, ⟨0, 1000⟩⟩ ≠ 0 := by
    unfold hOf
    simp only
    rw [show (1e7 : ℝ) * 1000 - 0 * 0 = 1e10 by norm_num]
    rw [abs_of_pos (by norm_num : (0:ℝ) < 1e10)]
    norm_num
  exact ⟨hE, hh, (getEccentricity_range _).2 hE hh⟩

/-! ## C6 — Hohmann transfer planner -/

/-- C6: `planTransfer(r1, r2, mu)` returns `null` whenever `r1 >= r2`, and
for `0 < r1 < r2` with `mu > 0` returns a transfer whose `totalDv` and
`transferTime` are both positive. -/
theorem planTransfer_spec (r1 r2 m : ℝ) :
    (r1 ≥ r2 → Hohmann.planTransfer r1 r2 m = none) ∧
    (0 < r1 → r1 < r2 → 0 < m →
      ∃ tr, Hohmann.planTransfer r1 r2 m = some tr ∧
        0 < tr.totalDv ∧ 0 < tr.transferTime) := by
  constructor
  · intro h
    unfold Hohmann.planTransfer
    rw [if_pos h]
  · intro hr1 h12 hm
    have hnot : ¬ (r1 ≥ r2) := not_le.mpr h12
    have ha : 0 < (r1 + r2) / 2 := by linarith
    have hr1a : r1 < (r1 + r2) / 2 := by linarith
    have hinv : 1 / ((r1 + r2) / 2) < 1 / r1 :=
      one_div_lt_one_div_of_lt hr1 hr1a
    have hkey : m / r1 < m * (2 / r1 - 1 / ((r1 + r2) / 2)) := by
      have h2 : 1 / r1 < 2 / r1 - 1 / ((r1 + r2) / 2) := by
        have : (2 : ℝ) / r1 = 1 / r1 + 1 / r1 := by ring
        linarith [this]
      calc m / r1 = m * (1 / r1) := by ring
        _ < m * (2 / r1 - 1 / ((r1 + r2) / 2)) :=
            mul_lt_mul_of_pos_left h2 hm
    have hsq : Real.sqrt (m / r1) <
        Real.sqrt (m * (2 / r1 - 1 / ((r1 + r2) / 2))) :=
      Real.sqrt_lt_sqrt (by positivity) hkey
    have hcirc : 0 < |Real.sqrt (m * (2 / r1 - 1 / ((r1 + r2) / 2)))
        - Real.sqrt (m / r1)| := by
      rw [abs_of_pos (by linarith)]
      linarith
    refine ⟨⟨|Real.sqrt (m * (2 / r1 - 1 / ((r1 + r2) / 2))) - Real.sqrt (m / r1)|
        + |Real.sqrt (m / r2) - Real.sqrt (m * (2 / r2 - 1 / ((r1 + r2) / 2)))|,
        |Real.sqrt (m * (2 / r1 - 1 / ((r1 + r2) / 2))) - Real.sqrt (m / r1)|,
        |Real.sqrt (m / r2) - Real.sqrt (m * (2 / r2 - 1 / ((r1 + r2) / 2)))|,
        Real.pi * Real.sqrt (((r1 + r2) / 2) ^ 3 / m), (r1 + r2) / 2⟩, ?_, ?_, ?_⟩
    · unfold Hohmann.planTransfer
      rw [if_neg hnot]
    · simp only
      have := abs_nonneg (Real.sqrt (m / r2)
        - Real.sqrt (m * (2 / r2 - 1 / ((r1 + r2) / 2))))
      linarith
    · simp only
      apply mul_pos Real.pi_pos
      apply Real.sqrt_pos.mpr
      positivity

/-- C6 witness: the spec scenario `r1 = 6771000 m`, `r2 = 6928000 m`,
`mu = 3.986e14` yields a transfer with positive `totalDv` and
`transferTime`, while `r1 = r2` yields `null`. -/
theorem planTransfer_spec_witness :
    (∃ tr, Hohmann.planTransfer 6771000 6928000 3.986e14 = some tr ∧
      0 < tr.totalDv ∧ 0 < tr.transferTime) ∧
    Hohmann.planTransfer 6928000 6928000 3.986e14 = none :=
  ⟨(planTransfer_spec 6771000 6928000 3.986e14).2 (by norm_num) (by norm_num)
      (by norm_num),
    (planTransfer_spec 6928000 6928000 3.986e14).1 le_rfl⟩

/-! ## C2 — third-body perturbation model and `Math.random` -/

/-- The `reason` strings produced by `calculateThirdBodyPerturbation`,
abstracted to constructors carrying the interpolated monthly-drift number. -/
inductive TBReason where
  | negligible
  | belowThreshold
  | geoDrift (monthly : ℝ)
  | heoPert (monthly : ℝ)
  | meoDrift (monthly : ℝ)
  | emptyReason
deriving DecidableEq

/-- The object returned by `calculateThirdBodyPerturbation`; fields absent
from a JavaScript return object are `none`. -/
structure TBResult where
  needsCorrection : Bool
  deltaV : Option ℝ
  direction : Option Vec2
  reason : TBReason
deriving DecidableEq

namespace Perfect

open Classical in
/-- `calculateThirdBodyPerturbation(sma, ecc, altitudeKm, missionTime)` of the
perfect 4-DOF controller.  The source draws `Math.random()` once in whichever
altitude/eccentricity branch is taken; that draw is modelled by the extra
input `rand ∈ [0, 1)`. -/
def calculateThirdBodyPerturbation (sma ecc altitudeKm missionTime rand : ℝ) :
    TBResult :=
  if altitudeKm < 15000 then ⟨false, none, none, .negligible⟩
  else
    let pair : ℝ × TBReason :=
      if 30000 < altitudeKm ∧ altitudeKm < 40000 then
        (45 + rand * 10, .geoDrift ((45 + rand * 10) / 12))
      else if 0.5 < ecc then
        (10 + rand * 10, .heoPert ((10 + rand * 10) / 12))
      else if 15000 < altitudeKm then
        (2 + rand * 3, .meoDrift ((2 + rand * 3) / 12))
      else (0, .emptyReason)
    let n := Real.sqrt (mu / sma ^ 3)
    let periodSeconds := 2 * Real.pi / n
    let orbitsPerYear := 365.25 * 86400 / periodSeconds
    let dvPerOrbit := pair.1 / orbitsPerYear
    let threshold : ℝ := if 30000 < altitudeKm then 0.5 else 0.2
    if dvPerOrbit > threshold then
      ⟨true, some (min dvPerOrbit 5.0), some ⟨1, 0⟩, pair.2⟩
    else ⟨false, none, none, .belowThreshold⟩

/-- At the GEO-band input `sma = 2e8, ecc = 0, alt = 35000`, the third-body
model takes the GEO branch and, for any `rand ∈ [0, 1)`, the per-orbit
delta-v lies strictly between the `0.5` threshold and the `5.0` cap. -/
theorem thirdBody_eval (rand : ℝ) (h0 : 0 ≤ rand) (h1 : rand < 1) :
    calculateThirdBodyPerturbation 2e8 0 35000 0 rand =
      ⟨true, some ((45 + rand * 10) /
          (365.25 * 86400 / (2 * Real.pi / Real.sqrt (mu / (2e8 : ℝ) ^ 3)))),
        some ⟨1, 0⟩, .geoDrift ((45 + rand * 10) / 12)⟩ := by
  have hmu : mu = 3.986004418e14 := rfl
  have hlo : (7e-6 : ℝ) < Real.sqrt (mu / (2e8 : ℝ) ^ 3) := by
    rw [show mu / (2e8 : ℝ) ^ 3 = 3.986004418e14 / 8e24 by rw [hmu]; norm_num]
    have h7 : (7e-6 : ℝ) = Real.sqrt ((7e-6) ^ 2) := by
      rw [Real.sqrt_sq (by norm_num)]
    rw [h7]
    apply Real.sqrt_lt_sqrt (by norm_num)
    norm_num
  have hhi : Real.sqrt (mu / (2e8 : ℝ) ^ 3) < 7.1e-6 := by
    rw [show mu / (2e8 : ℝ) ^ 3 = 3.986004418e14 / 8e24 by rw [hmu]; norm_num]
    have h71 : (7.1e-6 : ℝ) = Real.sqrt ((7.1e-6) ^ 2) := by
      rw [Real.sqrt_sq (by norm_num)]
    rw [h71]
    apply Real.sqrt_lt_sqrt (by norm_num)
    norm_num
  have hn : (0 : ℝ) < Real.sqrt (mu / (2e8 : ℝ) ^ 3) := by linarith
  have hpi_lo : (3.141592 : ℝ) < Real.pi := Real.pi_gt_3141592
  have hpi_hi : Real.pi < 3.15 := Real.pi_lt_315
  have hopy : 365.25 * 86400 / (2 * Real.pi / Real.sqrt (mu / (2e8 : ℝ) ^ 3))
      = 365.25 * 86400 * Real.sqrt (mu / (2e8 : ℝ) ^ 3) / (2 * Real.pi) := by
    rw [div_div_eq_mul_div]
  have hD_hi : 365.25 * 86400 * Real.sqrt (mu / (2e8 : ℝ) ^ 3) / (2 * Real.pi)
      < 36 := by
    rw [div_lt_iff₀ (by positivity)]
    nlinarith
  have hD_lo : (35 : ℝ)
      < 365.25 * 86400 * Real.sqrt (mu / (2e8 : ℝ) ^ 3) / (2 * Real.pi) := by
    rw [lt_div_iff₀ (by positivity)]
    nlinarith
  have hDpos : (0 : ℝ)
      < 365.25 * 86400 / (2 * Real.pi / Real.sqrt (mu / (2e8 : ℝ) ^ 3)) := by
    rw [hopy]; linarith
  have hdv_lo : (0.5 : ℝ) < (45 + rand * 10) /
      (365.25 * 86400 / (2 * Real.pi / Real.sqrt (mu / (2e8 : ℝ) ^ 3))) := by
    rw [lt_div_iff₀ hDpos, hopy]
    nlinarith
  have hdv_hi : (45 + rand * 10) /
      (365.25 * 86400 / (2 * Real.pi / Real.sqrt (mu / (2e8 : ℝ) ^ 3)))
      ≤ (5.0 : ℝ) := by
    rw [div_le_iff₀ hDpos, hopy]
    nlinarith
  unfold calculateThirdBodyPerturbation
  rw [if_neg (by norm_num : ¬ (35000 : ℝ) < 15000)]
  simp only
  rw [if_pos (by norm_num : (30000 : ℝ) < 35000 ∧ (35000 : ℝ) < 40000)]
  rw [if_pos (by norm_num : (30000 : ℝ) < 35000)]
  rw [if_pos hdv_lo]
  rw [min_eq_left hdv_hi]

end Perfect

/-! ### C2 theorems -/

/-- C2, counterexample: two calls of the third-body model with identical
orbital inputs (`sma = 2e8, ecc = 0, alt = 35000, missionTime = 0`) but
distinct `Math.random()` draws (`0` and `1/2`) return different outputs, so
the model is not idempotent in the claimed sense. -/
theorem thirdBody_two_calls_differ :
    Perfect.calculateThirdBodyPerturbation 2e8 0 35000 0 0 ≠
    Perfect.calculateThirdBodyPerturbation 2e8 0 35000 0 (1/2) := by
  rw [Perfect.thirdBody_eval 0 le_rfl (by norm_num),
    Perfect.thirdBody_eval (1/2) (by norm_num) (by norm_num)]
  intro h
  have h2 := congrArg TBResult.reason h
  simp only [TBReason.geoDrift.injEq] at h2
  norm_num at h2

/-- C2 (amended): the drag, J2 and SRP models are deterministic functions of
their inputs, but the third-body model consumes a fresh `Math.random()`
sample; with identical orbital inputs, any two distinct samples in `[0, 1)`
produce distinct outputs at a GEO-band input (`sma = 2e8, alt = 35000`). -/
theorem thirdBody_not_idempotent (r₁ r₂ : ℝ)
    (h₁0 : 0 ≤ r₁) (h₁1 : r₁ < 1) (h₂0 : 0 ≤ r₂) (h₂1 : r₂ < 1)
    (hne : r₁ ≠ r₂) :
    Perfect.calculateThirdBodyPerturbation 2e8 0 35000 0 r₁ ≠
    Perfect.calculateThirdBodyPerturbation 2e8 0 35000 0 r₂ := by
  rw [Perfect.thirdBody_eval r₁ h₁0 h₁1, Perfect.thirdBody_eval r₂ h₂0 h₂1]
  intro h
  have h2 := congrArg TBResult.reason h
  simp only [TBReason.geoDrift.injEq] at h2
  have : r₁ = r₂ := by linarith
  exact hne this

/-- C2 witness: the distinct draws `0` and `1/2` are admissible and give
distinct outputs. -/
theorem thirdBody_not_idempotent_witness :
    Perfect.calculateThirdBodyPerturbation 2e8 0 35000 0 0 ≠
    Perfect.calculateThirdBodyPerturbation 2e8 0 35000 0 (1/2) :=
  thirdBody_not_idempotent 0 (1/2) le_rfl (by norm_num) (by norm_num)
    (by norm_num) (by norm_num)

/-! ## C3 — burn-queue chunking in the advanced controller -/

/-- A burn reason string of the advanced controller, abstracted to its
identity-relevant parts: `text` is a tag standing for the base reason string
(distinct tags for distinct strings), `num` the numeric value interpolated
into it, and `chunk` the `(x.xx m/s)` suffix that `queueBurn` appends to
every chunk except the final one. -/
structure AReason where
  text : ℕ
  num : Option ℝ
  chunk : Option ℝ
deriving DecidableEq

/-- An entry of the advanced controller's `burnQueue`
(`{ dv, dir, reason, thruster }`); the thruster kind string is a tag. -/
structure ABurn where
  dv : ℝ
  dir : Vec2
  reason : AReason
  thruster : ℕ

namespace Advanced

open Classical in
/-- The `while (remaining > 0.0001)` chunking loop of the advanced
controller's `queueBurn` (the 4-argument definition, which in JavaScript
overrides the earlier 6-argument one in the same class).  The loop is run
with enough fuel to terminate; each iteration takes a chunk
`min remaining 2.0`, decorates the reason of non-final chunks, skips the
chunk when a near-duplicate (same dv within 0.01, same direction within
cosine 0.999, equal reason) is already queued, and pushes otherwise. -/
def chunkGo : ℕ → List ABurn → Vec2 → ℕ × Option ℝ → ℕ → ℝ → ℝ → List ABurn
  | 0, q, _, _, _, _, _ => q
  | fuel + 1, q, unitDir, reason, thruster, sign, remaining =>
    if remaining > 0.0001 then
      chunkGo fuel
        (if ∃ b ∈ q, |b.dv - min remaining 2.0 * sign| < 0.01 ∧
            |b.dir.x * unitDir.x + b.dir.y * unitDir.y| > 0.999 ∧
            b.reason = (if remaining = min remaining 2.0 then
                AReason.mk reason.1 reason.2 none
              else AReason.mk reason.1 reason.2 (some (min remaining 2.0)))
          then q
          else q ++ [⟨min remaining 2.0 * sign, unitDir,
            (if remaining = min remaining 2.0 then
                AReason.mk reason.1 reason.2 none
              else AReason.mk reason.1 reason.2 (some (min remaining 2.0))),
            thruster⟩])
        unitDir reason thruster sign (remaining - min remaining 2.0)
    else q

open Classical in
/-- The direction normalisation at the top of `queueBurn`:
`mag = Math.hypot(x, y) || 1; unitDir = { x: x / mag, y: y / mag }`. -/
def normalizeDir (d : Vec2) : Vec2 :=
  if hypot d.x d.y = 0 then ⟨d.x / 1, d.y / 1⟩
  else ⟨d.x / hypot d.x d.y, d.y / hypot d.x d.y⟩

open Classical in
/-- `queueBurn(dv, directionUnitVec, reason, thruster)` of the advanced
controller: rejects `dv <= 0.2`, normalises the direction, then runs the
chunking loop on `|dv|` with `sign = dv >= 0 ? 1 : -1` and maximum chunk
size `2.0`. -/
def queueBurn (q : List ABurn) (dv : ℝ) (directionUnitVec : Vec2)
    (reason : ℕ × Option ℝ) (thruster : ℕ) : List ABurn :=
  if dv ≤ 0.2 then q
  else
    chunkGo (⌈|dv|⌉₊ + 1) q (normalizeDir directionUnitVec)
      reason thruster (if 0 ≤ dv then 1 else -1) |dv|

/-- One unfolding of the chunk loop. -/
theorem chunkGo_succ (fuel : ℕ) (q : List ABurn) (unitDir : Vec2)
    (reason : ℕ × Option ℝ) (thruster : ℕ) (sign remaining : ℝ) :
    chunkGo (fuel + 1) q unitDir reason thruster sign remaining =
    if remaining > 0.0001 then
      chunkGo fuel
        (if ∃ b ∈ q, |b.dv - min remaining 2.0 * sign| < 0.01 ∧
            |b.dir.x * unitDir.x + b.dir.y * unitDir.y| > 0.999 ∧
            b.reason = (if remaining = min remaining 2.0 then
                AReason.mk reason.1 reason.2 none
              else AReason.mk reason.1 reason.2 (some (min remaining 2.0)))
          then q
          else q ++ [⟨min remaining 2.0 * sign, unitDir,
            (if remaining = min remaining 2.0 then
                AReason.mk reason.1 reason.2 none
              else AReason.mk reason.1 reason.2 (some (min remaining 2.0))),
            thruster⟩])
        unitDir reason thruster sign (remaining - min remaining 2.0)
    else q := rfl

/-- The loop is the identity once `remaining` has dropped to the `0.0001`
threshold. -/
theorem chunkGo_done (fuel : ℕ) (q : List ABurn) (unitDir : Vec2)
    (reason : ℕ × Option ℝ) (thruster : ℕ) (sign remaining : ℝ)
    (h : remaining ≤ 0.0001) :
    chunkGo fuel q unitDir reason thruster sign remaining = q := by
  cases fuel with
  | zero => rfl
  | succ n =>
    rw [chunkGo_succ, if_neg (not_lt.mpr h)]

end Advanced

/-! ### C3 theorems -/

/-- C3, counterexample: enqueueing `dv = 5` (magnitude larger than the
maximum chunk size `2.0`) into an empty queue yields only the chunks
`[2, 1]` — the second full-size chunk is rejected by the duplicate check
(same dv, same direction, same decorated reason as the first) — so the queued
magnitudes sum to `3`, not to the original `5`. -/
theorem queueBurn_five_drops_chunk :
    (Advanced.queueBurn [] 5 ⟨1, 0⟩ (0, none) 0).map ABurn.dv = [2, 1] ∧
    ((Advanced.queueBurn [] 5 ⟨1, 0⟩ (0, none) 0).map ABurn.dv).sum ≠ 5 := by
  have hnd : Advanced.normalizeDir ⟨1, 0⟩ = ⟨1, 0⟩ := by
    unfold Advanced.normalizeDir hypot
    rw [show (1 : ℝ) * 1 + 0 * 0 = 1 by ring, Real.sqrt_one,
      if_neg one_ne_zero]
    norm_num
  have habs : |(5 : ℝ)| = 5 := abs_of_pos (by norm_num)
  have hceil : ⌈|(5 : ℝ)|⌉₊ = 5 := by rw [habs]; simp
  have hq : Advanced.queueBurn [] 5 ⟨1, 0⟩ (0, none) 0 =
      [⟨2.0 * 1, ⟨1, 0⟩, ⟨0, none, some 2.0⟩, 0⟩,
        ⟨1 * 1, ⟨1, 0⟩, ⟨0, none, none⟩, 0⟩] := by
    unfold Advanced.queueBurn
    rw [if_neg (by norm_num : ¬ (5 : ℝ) ≤ 0.2), hnd, hceil, habs,
      if_pos (by norm_num : (0 : ℝ) ≤ 5)]
    -- first iteration: remaining = 5, chunk = 2, pushed
    rw [Advanced.chunkGo_succ, if_pos (by norm_num : (5 : ℝ) > 0.0001),
      show min (5 : ℝ) 2.0 = 2.0 from min_eq_right (by norm_num),
      if_neg (by norm_num : ¬ (5 : ℝ) = 2.0),
      if_neg (by simp : ¬ ∃ b ∈ ([] : List ABurn),
        |b.dv - 2.0 * 1| < 0.01 ∧
        |b.dir.x * (1 : ℝ) + b.dir.y * 0| > 0.999 ∧
        b.reason = AReason.mk 0 none (some 2.0)),
      List.nil_append, show (5 : ℝ) - 2.0 = 3 by norm_num]
    -- second iteration: remaining = 3, chunk = 2, duplicate, dropped
    rw [Advanced.chunkGo_succ, if_pos (by norm_num : (3 : ℝ) > 0.0001),
      show min (3 : ℝ) 2.0 = 2.0 from min_eq_right (by norm_num),
      if_neg (by norm_num : ¬ (3 : ℝ) = 2.0),
      if_pos (show ∃ b ∈ [(⟨2.0 * 1, ⟨1, 0⟩,
          AReason.mk 0 none (some 2.0), 0⟩ : ABurn)],
        |b.dv - 2.0 * 1| < 0.01 ∧
        |b.dir.x * (1 : ℝ) + b.dir.y * 0| > 0.999 ∧
        b.reason = AReason.mk 0 none (some 2.0) from
        ⟨_, List.mem_cons_self _ _, by norm_num, by norm_num, rfl⟩),
      show (3 : ℝ) - 2.0 = 1 by norm_num]
    -- third iteration: remaining = 1, final chunk, pushed
    rw [Advanced.chunkGo_succ, if_pos (by norm_num : (1 : ℝ) > 0.0001),
      show min (1 : ℝ) 2.0 = 1 from min_eq_left (by norm_num),
      if_pos rfl,
      if_neg (by
        rintro ⟨b, hb, h1, h2, h3⟩
        simp only [List.mem_singleton] at hb
        subst hb
        norm_num at h1 : ¬ ∃ b ∈ [(⟨2.0 * 1, ⟨1, 0⟩,
          AReason.mk 0 none (some 2.0), 0⟩ : ABurn)],
        |b.dv - 1 * 1| < 0.01 ∧
        |b.dir.x * (1 : ℝ) + b.dir.y * 0| > 0.999 ∧
        b.reason = AReason.mk 0 none none),
      show (1 : ℝ) - 1 = 0 by norm_num]
    rw [Advanced.chunkGo_done _ _ _ _ _ _ _ (by norm_num)]
    norm_num
  rw [hq]
  norm_num

/-- C3 (amended): for a positive delta-v strictly between `2.0001` (the chunk
threshold margin) and twice the maximum chunk size (`4`), enqueueing into an
empty queue produces two requests, each of magnitude at most the chunk size
`2`, whose magnitudes sum exactly to the original delta-v.  (For larger
delta-v the duplicate check drops repeated full-size chunks, and nonpositive
delta-v is rejected by the `dv <= 0.2` guard.) -/
theorem queueBurn_chunking_small (dv : ℝ) (d : Vec2) (reason : ℕ × Option ℝ)
    (t : ℕ) (h1 : 2.0001 < dv) (h2 : dv ≤ 4) :
    (Advanced.queueBurn [] dv d reason t).map ABurn.dv = [2, dv - 2] ∧
    ((Advanced.queueBurn [] dv d reason t).map ABurn.dv).sum = dv ∧
    2 ≤ (Advanced.queueBurn [] dv d reason t).length ∧
    ∀ b ∈ Advanced.queueBurn [] dv d reason t, |b.dv| ≤ 2 := by
  have habs : |dv| = dv := abs_of_pos (by linarith)
  have hpos : 0 < ⌈dv⌉₊ := Nat.ceil_pos.mpr (by linarith)
  obtain ⟨m, hm⟩ : ∃ m, ⌈dv⌉₊ = m + 1 :=
    ⟨⌈dv⌉₊ - 1, (Nat.succ_pred_eq_of_pos hpos).symm⟩
  have hq : Advanced.queueBurn [] dv d reason t =
      [⟨2.0 * 1, Advanced.normalizeDir d, ⟨reason.1, reason.2, some 2.0⟩, t⟩,
        ⟨(dv - 2.0) * 1, Advanced.normalizeDir d,
          ⟨reason.1, reason.2, none⟩, t⟩] := by
    unfold Advanced.queueBurn
    rw [if_neg (by linarith : ¬ dv ≤ 0.2), habs,
      if_pos (by linarith : (0 : ℝ) ≤ dv)]
    -- first iteration: chunk = 2, pushed with decorated reason
    rw [Advanced.chunkGo_succ, if_pos (by linarith : dv > 0.0001),
      show min dv 2.0 = 2.0 from min_eq_right (by linarith),
      if_neg (show ¬ dv = 2.0 by intro h; rw [h] at h1; norm_num at h1),
      if_neg (by simp : ¬ ∃ b ∈ ([] : List ABurn),
        |b.dv - 2.0 * 1| < 0.01 ∧
        |b.dir.x * (Advanced.normalizeDir d).x
          + b.dir.y * (Advanced.normalizeDir d).y| > 0.999 ∧
        b.reason = AReason.mk reason.1 reason.2 (some 2.0)),
      List.nil_append, hm]
    -- second iteration: final chunk dv - 2, pushed with the original reason
    rw [Advanced.chunkGo_succ, if_pos (by linarith : dv - 2.0 > 0.0001),
      show min (dv - 2.0) 2.0 = dv - 2.0 from min_eq_left (by linarith),
      if_pos rfl,
      if_neg (by
        rintro ⟨b, hb, _, _, h3⟩
        simp only [List.mem_singleton] at hb
        subst hb
        simp only [AReason.mk.injEq] at h3
        exact Option.some_ne_none _ h3.2.2 :
        ¬ ∃ b ∈ [(⟨2.0 * 1, Advanced.normalizeDir d,
            AReason.mk reason.1 reason.2 (some 2.0), t⟩ : ABurn)],
          |b.dv - (dv - 2.0) * 1| < 0.01 ∧
          |b.dir.x * (Advanced.normalizeDir d).x
            + b.dir.y * (Advanced.normalizeDir d).y| > 0.999 ∧
          b.reason = AReason.mk reason.1 reason.2 none),
      sub_self]
    rw [Advanced.chunkGo_done _ _ _ _ _ _ _ (by norm_num)]
    rfl
  refine ⟨?_, ?_, ?_, ?_⟩
  · rw [hq]
    simp only [List.map_cons, List.map_nil]
    norm_num
  · rw [hq]
    simp only [List.map_cons, List.map_nil, List.sum_cons, List.sum_nil]
    ring
  · rw [hq]
    simp
  · rw [hq]
    rintro b hb
    simp only [List.mem_cons, List.mem_singleton, List.not_mem_nil,
      or_false] at hb
    rcases hb with hb | hb
    · subst hb
      simp only
      norm_num
    · subst hb
      simp only
      rw [mul_one, abs_of_nonneg (by linarith)]
      linarith

/-- C3 witness: for the in-range delta-v `3`, the queue receives two
requests summing exactly to `3`. -/
theorem queueBurn_chunking_small_witness :
    (2.0001 : ℝ) < 3 ∧ (3 : ℝ) ≤ 4 ∧
    ((Advanced.queueBurn [] 3 ⟨0, 1⟩ (1, none) 2).map ABurn.dv).sum = 3 :=
  ⟨by norm_num, by norm_num,
    (queueBurn_chunking_small 3 ⟨0, 1⟩ (1, none) 2 (by norm_num)
      (by norm_num)).2.1⟩

/-! ## The final fixed controller (third source part): state and interface -/

/-- Thruster kind tags `"chemical"` / `"electric"`. -/
inductive Thruster where
  | chemical
  | electric
deriving DecidableEq

/-- The `reason` strings built by the final controller's `update`, abstracted
to constructors carrying the interpolated numbers (distinct constructors or
payloads correspond to distinct strings). -/
inductive FReason where
  | dragReboost (dv : ℝ)
  | eccFixRetro (e : ℝ)
  | eccFixPro (e : ℝ)
  | smaFix (errKm : ℝ)
  | heoEccFix (err : ℝ)
  | heoSmaFix (errKm : ℝ)
deriving DecidableEq

/-- Log entries of the final controller, abstracted to tags with the
interpolated numeric payloads. -/
inductive LogMsg where
  | engage
  | disengage
  | perigeeSet (w : ℝ)
  | dragInfo (accel dv : ℝ)
  | execInfo (rescue : Bool) (dv : ℝ)
deriving DecidableEq

/-- A queued burn `{ dv, dir, reason, thruster }` of the final controller. -/
structure FBurn where
  dv : ℝ
  dir : Vec2
  reason : FReason
  thruster : Thruster
deriving DecidableEq

/-- The mutable fields of the final controller object. -/
structure Ctrl2 where
  enabled : Bool
  rescueMode : Bool
  lastBurnTime : ℝ
  burnQueue : List FBurn
  log : List LogMsg
  argumentOfPerigee : ℝ

/-- The `constraints` object: threshold triples are optional, as is the
regime configuration.  `none` models an absent (`undefined`) field. -/
structure Thresholds where
  warning : ℝ
  violation : ℝ
  critical : ℝ

/-- Regime constraints as consumed by the controllers. -/
structure Constraints where
  targetAlt : ℝ
  targetEccentricity : Option ℝ
  perigeeAlt : Option ℝ
  eccentricity : Option Thresholds
  altitude_km : Option Thresholds

namespace Final

/-- `logMessage`: unshift the entry and truncate the log to 50 entries. -/
def logMessage (log : List LogMsg) (m : LogMsg) : List LogMsg :=
  (m :: log).take 50

/-- `setEnabled(enabled)` of the final controller: sets the flag and logs;
nothing else (queue, rescue flag, timers) is touched. -/
def setEnabled (c : Ctrl2) (enabled : Bool) : Ctrl2 :=
  { c with
    enabled := enabled
    log := logMessage c.log (if enabled then .engage else .disengage) }

/-- JavaScript `Math.trunc`-style truncation used by the `%` operator. -/
def jsTrunc (x : ℝ) : ℤ :=
  if 0 ≤ x then ⌊x⌋ else -⌊-x⌋

/-- The JavaScript remainder `a % b` (same sign as the dividend). -/
def jsMod (a b : ℝ) : ℝ := a - b * (jsTrunc (a / b) : ℝ)

/-- `setArgumentOfPerigee(radians)`: stores `radians % (2*pi)` and logs. -/
def setArgumentOfPerigee (c : Ctrl2) (radians : ℝ) : Ctrl2 :=
  { c with
    argumentOfPerigee := jsMod radians (2 * Real.pi)
    log := logMessage c.log (.perigeeSet (jsMod radians (2 * Real.pi))) }

open Classical in
/-- The true-anomaly computation of `update`:
`atan2(y, x) - argumentOfPerigee`, plus `2*pi` if negative. -/
def computeTrueAnomaly (pos : Vec2) (argumentOfPerigee : ℝ) : ℝ :=
  if atan2 pos.y pos.x - argumentOfPerigee < 0 then
    atan2 pos.y pos.x - argumentOfPerigee + 2 * Real.pi
  else atan2 pos.y pos.x - argumentOfPerigee

end Final

/-! ## The PID autopilot (first source part): `setEnabled` and PID state -/

/-- One PID channel `{kP, kI, kD, integral, lastError}`. -/
structure PIDChannel where
  kP : ℝ
  kI : ℝ
  kD : ℝ
  integral : ℝ
  lastError : ℝ

/-- The mutable fields of the PID autopilot relevant to enable/disable. -/
structure Ctrl0 where
  enabled : Bool
  rescueMode : Bool
  isHEO : Bool
  altitudePID : PIDChannel
  velocityPID : PIDChannel
  lastCorrectionTime : ℝ
  log : List LogMsg

namespace PID

/-- `resetPID()`: zero both integrals and last errors. -/
def resetPID (c : Ctrl0) : Ctrl0 :=
  { c with
    altitudePID := { c.altitudePID with integral := 0, lastError := 0 },
    velocityPID := { c.velocityPID with integral := 0, lastError := 0 } }

/-- `setEnabled(enabled)` of the PID autopilot: sets the flag; calls
`resetPID()` only when enabling; logs either way. -/
def setEnabled (c : Ctrl0) (enabled : Bool) : Ctrl0 :=
  if enabled then
    let c1 := resetPID { c with enabled := enabled }
    { c1 with log := Final.logMessage c1.log .engage }
  else
    { c with
      enabled := enabled
      log := Final.logMessage c.log .disengage }

end PID

/-! ### C7 theorems -/

/-- C7, counterexample: `setEnabled(false)` resets nothing — the PID
autopilot keeps its accumulated integral (`7`) and last error (`3`), and the
final controller keeps its pending burn queue. -/
theorem setEnabled_false_resets_nothing :
    (PID.setEnabled ⟨true, false, false, ⟨0.002, 0.0001, 0.01, 7, 3⟩,
        ⟨0.001, 0.00005, 0.005, 4, 2⟩, 0, []⟩ false).altitudePID.integral = 7 ∧
    (PID.setEnabled ⟨true, false, false, ⟨0.002, 0.0001, 0.01, 7, 3⟩,
        ⟨0.001, 0.00005, 0.005, 4, 2⟩, 0, []⟩ false).altitudePID.lastError = 3 ∧
    (Final.setEnabled ⟨true, false, 0,
        [⟨1.5, ⟨1, 0⟩, .dragReboost 1.5, .electric⟩], [], 0⟩ false).burnQueue =
      [⟨1.5, ⟨1, 0⟩, .dragReboost 1.5, .electric⟩] := by
  refine ⟨?_, ?_, ?_⟩ <;> rfl

/-- C7 (amended): the stale-state reset happens on *activation*, not on
cancellation — `setEnabled(true)` in the PID autopilot zeroes the PID
integrals and last errors (so no PID history from a previous activation
carries over), while `setEnabled` in the queue-based final controller never
touches the pending burn queue, rescue flag or last-burn time. -/
theorem setEnabled_reset_on_enable (c : Ctrl0) (c2 : Ctrl2) (e : Bool) :
    (PID.setEnabled c true).altitudePID.integral = 0 ∧
    (PID.setEnabled c true).altitudePID.lastError = 0 ∧
    (PID.setEnabled c true).velocityPID.integral = 0 ∧
    (PID.setEnabled c true).velocityPID.lastError = 0 ∧
    (Final.setEnabled c2 e).burnQueue = c2.burnQueue ∧
    (Final.setEnabled c2 e).rescueMode = c2.rescueMode ∧
    (Final.setEnabled c2 e).lastBurnTime = c2.lastBurnTime := by
  refine ⟨?_, ?_, ?_, ?_, ?_, ?_, ?_⟩ <;> rfl

/-! ### C9 theorems -/

/-- C9, counterexample: the argument of perigee `-6` is storable via
`setArgumentOfPerigee` (it is its own remainder modulo `2*pi`), and at
position `(-1, 0)` the computed true anomaly is `pi + 6 >= 2*pi`, outside
the claimed interval `[0, 2*pi)`. -/
theorem trueAnomaly_not_normalized :
    (Final.setArgumentOfPerigee ⟨false, false, 0, [], [], 0⟩
        (-6)).argumentOfPerigee = -6 ∧
    ¬ Final.computeTrueAnomaly ⟨-1, 0⟩ (-6) < 2 * Real.pi := by
  have hpi_lo : (3.141592 : ℝ) < Real.pi := Real.pi_gt_3141592
  have hpi_hi : Real.pi < 3.15 := Real.pi_lt_315
  have harg : atan2 0 (-1) = Real.pi := by
    unfold atan2
    rw [show (⟨-1, 0⟩ : ℂ) = -1 from Complex.ext (by simp) (by simp)]
    exact Complex.arg_neg_one
  constructor
  · show Final.jsMod (-6) (2 * Real.pi) = -6
    unfold Final.jsMod Final.jsTrunc
    have hneg : (-6 : ℝ) / (2 * Real.pi) < 0 := by
      apply div_neg_of_neg_of_pos (by norm_num)
      positivity
    rw [if_neg (not_le.mpr hneg)]
    have hfl : ⌊-((-6 : ℝ) / (2 * Real.pi))⌋ = 0 := by
      rw [Int.floor_eq_zero_iff]
      constructor
      · rw [neg_div, neg_neg]
        positivity
      · rw [neg_div, neg_neg, div_lt_one (by positivity)]
        linarith
    rw [hfl]
    push_cast
    ring
  · unfold Final.computeTrueAnomaly
    simp only [harg]
    rw [if_neg (by linarith : ¬ Real.pi - (-6) < 0)]
    linarith

/-- C9 (amended): whenever the reference argument-of-perigee angle lies in
`(-pi, pi]` (in particular whenever it equals `atan2` output for the initial
orbit), the computed true anomaly is normalised into `[0, 2*pi)`; outside
that range the single `+2*pi` correction can under- or overshoot. -/
theorem trueAnomaly_normalized (pos : Vec2) (w : ℝ)
    (h1 : -Real.pi < w) (h2 : w ≤ Real.pi) :
    Final.computeTrueAnomaly pos w ∈ Set.Ico 0 (2 * Real.pi) := by
  have hlo : -Real.pi < atan2 pos.y pos.x := Complex.neg_pi_lt_arg _
  have hhi : atan2 pos.y pos.x ≤ Real.pi := Complex.arg_le_pi _
  unfold Final.computeTrueAnomaly
  split_ifs with h
  · exact ⟨by linarith, by linarith⟩
  · exact ⟨by linarith, by linarith⟩

/-- C9 witness: with reference angle `0` (inside `(-pi, pi]`) the true
anomaly at position `(1, 0)` lies in `[0, 2*pi)`. -/
theorem trueAnomaly_normalized_witness :
    -Real.pi < 0 ∧ (0 : ℝ) ≤ Real.pi ∧
    Final.computeTrueAnomaly ⟨1, 0⟩ 0 ∈ Set.Ico 0 (2 * Real.pi) :=
  ⟨neg_neg_of_pos Real.pi_pos, Real.pi_pos.le,
    trueAnomaly_normalized ⟨1, 0⟩ 0 (neg_neg_of_pos Real.pi_pos)
      Real.pi_pos.le⟩

/-! ## The final controller's `update` tick -/

namespace Final

open Classical in
/-- Truthy-or for numbers: `x || d` in JavaScript (`0` is falsy). -/
def jsOr (x d : ℝ) : ℝ := if x = 0 then d else x

/-- `constraints.eccentricity?.warning || 0.001` (circular regimes). -/
def eccWarnC (cons : Constraints) : ℝ :=
  match cons.eccentricity with
  | none => 0.001
  | some th => jsOr th.warning 0.001

/-- `constraints.eccentricity?.violation || 0.005`. -/
def eccViolC (cons : Constraints) : ℝ :=
  match cons.eccentricity with
  | none => 0.005
  | some th => jsOr th.violation 0.005

/-- `constraints.altitude_km?.warning || 5`. -/
def altWarnC (cons : Constraints) : ℝ :=
  match cons.altitude_km with
  | none => 5
  | some th => jsOr th.warning 5

/-- `constraints.altitude_km?.violation || 15`. -/
def altViolC (cons : Constraints) : ℝ :=
  match cons.altitude_km with
  | none => 15
  | some th => jsOr th.violation 15

/-- `constraints.eccentricity?.warning || 0.05` (Molniya branch). -/
def eccWarnHEO (cons : Constraints) : ℝ :=
  match cons.eccentricity with
  | none => 0.05
  | some th => jsOr th.warning 0.05

/-- `constraints.targetEccentricity || 0.72`. -/
def targetEccD (cons : Constraints) : ℝ :=
  match cons.targetEccentricity with
  | none => 0.72
  | some te => jsOr te 0.72

/-- `constraints.targetAlt || 42000` (Molniya branch). -/
def targetAltD (cons : Constraints) : ℝ := jsOr cons.targetAlt 42000

/-- `constraints.perigeeAlt || 1000`. -/
def perigeeAltD (cons : Constraints) : ℝ :=
  match cons.perigeeAlt with
  | none => 1000
  | some p => jsOr p 1000

/-- The Molniya target semi-major axis `(rApogee + rPerigee) / 2`. -/
def targetSMAOf (cons : Constraints) : ℝ :=
  ((earthRadius + targetAltD cons * 1000)
    + (earthRadius + perigeeAltD cons * 1000)) / 2

/-- `constraints.targetEccentricity && constraints.targetEccentricity > 0.5`. -/
def isMolniyaOf (cons : Constraints) : Prop :=
  match cons.targetEccentricity with
  | none => False
  | some te => 0.5 < te

/-- `altitude = (r - earthRadius) / 1000` in km. -/
def altitudeOf (s : OrbState) : ℝ :=
  (hypot s.pos.x s.pos.y - earthRadius) / 1000

/-- `nearPerigee`: true anomaly within `0.15` rad of `0` (or of `2*pi`). -/
def nearPerigeeOf (s : OrbState) (w : ℝ) : Prop :=
  |computeTrueAnomaly s.pos w| < 0.15 ∨
  |computeTrueAnomaly s.pos w - 2 * Real.pi| < 0.15

/-- `nearApogee`: true anomaly within `0.15` rad of `pi`. -/
def nearApogeeOf (s : OrbState) (w : ℝ) : Prop :=
  |computeTrueAnomaly s.pos w - Real.pi| < 0.15

/-- `progradeUnit = { x: -radialUnit.y, y: radialUnit.x }`. -/
def progradeOf (s : OrbState) : Vec2 :=
  ⟨-(s.pos.y / hypot s.pos.x s.pos.y), s.pos.x / hypot s.pos.x s.pos.y⟩

/-- `retrogradeUnit = { x: -progradeUnit.x, y: -progradeUnit.y }`. -/
def retrogradeOf (s : OrbState) : Vec2 :=
  ⟨s.pos.y / hypot s.pos.x s.pos.y, -(s.pos.x / hypot s.pos.x s.pos.y)⟩

open Classical in
/-- `calculateDragAcceleration(altitudeKm)` of the final controller. -/
def calculateDragAcceleration (altitudeKm : ℝ) : ℝ :=
  if altitudeKm < 150 then 0.5
  else
    (2.5e-12 * Real.exp (-(altitudeKm - 400) /
        (if altitudeKm < 700 then (65 : ℝ) else 150)) * 60000000) / (2 * 140)

open Classical in
/-- `queueBurn(dv, dir, reason, thruster)` of the final controller: queue
only significant burns (`dv > 0.2`) that do not duplicate a queued burn with
the same reason and a dv within `0.1`. -/
def queueBurn (q : List FBurn) (dv : ℝ) (dir : Vec2) (reason : FReason)
    (thruster : Thruster) : List FBurn :=
  if dv > 0.2 then
    if ∃ b ∈ q, b.reason = reason ∧ |b.dv - dv| < 0.1 then q
    else q ++ [⟨dv, dir, reason, thruster⟩]
  else q

open Classical in
/-- The universal-drag-compensation block of `update`. -/
def dragStep (c : Ctrl2) (altitude sma : ℝ) (nearPerigee : Prop)
    (progradeUnit : Vec2) : Ctrl2 :=
  if calculateDragAcceleration altitude > 1e-10 ∧ nearPerigee then
    if calculateDragAcceleration altitude
        * (2 * Real.pi * Real.sqrt (sma ^ 3 / mu)) * 0.7 > 0.1 then
      { c with
        burnQueue := queueBurn c.burnQueue
          (calculateDragAcceleration altitude
            * (2 * Real.pi * Real.sqrt (sma ^ 3 / mu)) * 0.7)
          progradeUnit
          (.dragReboost (calculateDragAcceleration altitude
            * (2 * Real.pi * Real.sqrt (sma ^ 3 / mu)) * 0.7))
          (if altitude < 1000 then .chemical else .electric)
        log := logMessage c.log
          (.dragInfo (calculateDragAcceleration altitude)
            (calculateDragAcceleration altitude
              * (2 * Real.pi * Real.sqrt (sma ^ 3 / mu)) * 0.7)) }
    else c
  else c

open Classical in
/-- The eccentricity-control block of `update` (circular regimes): highest
priority, burns only near apogee or perigee, sets the rescue flag above the
violation threshold and clears it when eccentricity is nominal. -/
def eccStep (c : Ctrl2) (ecc warnV violV : ℝ) (nearApogee nearPerigee : Prop)
    (progradeUnit retrogradeUnit : Vec2) : Ctrl2 :=
  if ecc > warnV * 0.8 then
    if nearApogee then
      let c1 := { c with
        burnQueue := queueBurn c.burnQueue (min (ecc * 2000) 12)
          retrogradeUnit (.eccFixRetro ecc) .electric }
      if ecc > violV then { c1 with rescueMode := true } else c1
    else if nearPerigee then
      let c1 := { c with
        burnQueue := queueBurn c.burnQueue (min (ecc * 2000) 12)
          progradeUnit (.eccFixPro ecc) .electric }
      if ecc > violV then { c1 with rescueMode := true } else c1
    else c
  else { c with rescueMode := false }

open Classical in
/-- The semi-major-axis-control block of `update` (circular regimes): only
runs when eccentricity is already low (`ecc < warning * 1.2`), and only near
apogee or perigee. -/
def smaStep (c : Ctrl2) (ecc warnV sma targetRadius altWarnV altViolV : ℝ)
    (nearPerigee nearApogee : Prop)
    (progradeUnit retrogradeUnit : Vec2) : Ctrl2 :=
  if ecc < warnV * 1.2 then
    if |(sma - targetRadius) / 1000| > altWarnV * 0.3
        ∧ (nearPerigee ∨ nearApogee) then
      let c1 := { c with
        burnQueue := queueBurn c.burnQueue
          |(sma - targetRadius) / 1000 * 0.5|
          (if (sma - targetRadius) / 1000 > 0 then progradeUnit
            else retrogradeUnit)
          (.smaFix ((sma - targetRadius) / 1000))
          (if |(sma - targetRadius) / 1000 * 0.5| < 3 then .electric
            else .chemical) }
      if |(sma - targetRadius) / 1000| > altViolV then
        { c1 with rescueMode := true }
      else c1
    else c
  else c

open Classical in
/-- The Molniya/HEO block of `update`: eccentricity and SMA corrections only
near perigee, with the regime-specific gains `250` and `0.08`. -/
def molniyaStep (c : Ctrl2) (ecc sma targetEcc targetSMA eccWarnV : ℝ)
    (nearPerigee : Prop) (progradeUnit retrogradeUnit : Vec2) : Ctrl2 :=
  if nearPerigee then
    let c1 :=
      if |ecc - targetEcc| > eccWarnV * 0.2 then
        { c with
          burnQueue := queueBurn c.burnQueue |(ecc - targetEcc) * 250|
            (if ecc - targetEcc > 0 then retrogradeUnit else progradeUnit)
            (.heoEccFix (ecc - targetEcc)) .chemical
          rescueMode := true }
      else c
    if |(sma - targetSMA) / 1000| > 100 then
      { c1 with
        burnQueue := queueBurn c1.burnQueue |(sma - targetSMA) / 1000 * 0.08|
          (if (sma - targetSMA) / 1000 > 0 then progradeUnit
            else retrogradeUnit)
          (.heoSmaFix ((sma - targetSMA) / 1000)) .chemical }
    else c1
  else c

open Classical in
/-- The burn-execution block at the end of `update`: at most one queued burn
is dequeued and fired per `120` second interval; the applied delta-v is
signed by the burn direction's dot product with the current velocity. -/
def execStep (c : Ctrl2) (missionTime : ℝ) (vel : Vec2) :
    Ctrl2 × Option (ℝ × Thruster) :=
  if missionTime - c.lastBurnTime > 120 then
    match c.burnQueue with
    | [] => (c, none)
    | burn :: rest =>
      ({ c with
          burnQueue := rest
          lastBurnTime := missionTime
          log := logMessage c.log (.execInfo c.rescueMode burn.dv) },
        some (burn.dv * (if burn.dir.x
              * (vel.x / (if hypot vel.x vel.y = 0 then 1 else hypot vel.x vel.y))
            + burn.dir.y
              * (vel.y / (if hypot vel.x vel.y = 0 then 1 else hypot vel.x vel.y))
            ≥ 0 then 1 else -1),
          burn.thruster))
  else (c, none)

open Classical in
/-- `update(state, constraints, currentMass, missionTime, fireThruster)` of
the final controller: returns `null` immediately when disabled; otherwise
runs drag compensation, then either the circular-regime blocks (eccentricity
first, then SMA) or the Molniya block, then the execution block.  The pair's
second component models the `fireThrusterCallback(dvToApply, thruster)`
invocation (`none` when no burn was fired); the source's return value is
always `null`. -/
def update (c : Ctrl2) (s : OrbState) (cons : Constraints)
    (currentMass missionTime : ℝ) : Ctrl2 × Option (ℝ × Thruster) :=
  if c.enabled then
    execStep
      (if isMolniyaOf cons then
        molniyaStep
          (dragStep c (altitudeOf s) (getSMA s)
            (nearPerigeeOf s c.argumentOfPerigee) (progradeOf s))
          (getEccentricity s) (getSMA s) (targetEccD cons) (targetSMAOf cons)
          (eccWarnHEO cons) (nearPerigeeOf s c.argumentOfPerigee)
          (progradeOf s) (retrogradeOf s)
      else
        smaStep
          (eccStep
            (dragStep c (altitudeOf s) (getSMA s)
              (nearPerigeeOf s c.argumentOfPerigee) (progradeOf s))
            (getEccentricity s) (eccWarnC cons) (eccViolC cons)
            (nearApogeeOf s c.argumentOfPerigee)
            (nearPerigeeOf s c.argumentOfPerigee)
            (progradeOf s) (retrogradeOf s))
          (getEccentricity s) (eccWarnC cons) (getSMA s)
          (earthRadius + cons.targetAlt * 1000) (Final.altWarnC cons)
          (altViolC cons) (nearPerigeeOf s c.argumentOfPerigee)
          (nearApogeeOf s c.argumentOfPerigee)
          (progradeOf s) (retrogradeOf s))
      missionTime s.vel
  else (c, none)

/-- The reason tags of eccentricity-correction burns. -/
def isEccFix : FReason → Prop
  | .eccFixRetro _ => True
  | .eccFixPro _ => True
  | _ => False

/-- The reason tags of SMA/altitude-correction burns. -/
def isSmaFix : FReason → Prop
  | .smaFix _ => True
  | _ => False

theorem isEccFix_not_smaFix (r : FReason) (h : isEccFix r) : ¬ isSmaFix r := by
  cases r <;> simp [isEccFix, isSmaFix] at h ⊢

theorem queueBurn_cases (q : List FBurn) (dv : ℝ) (dir : Vec2)
    (reason : FReason) (thruster : Thruster) :
    queueBurn q dv dir reason thruster = q ∨
    queueBurn q dv dir reason thruster = q ++ [⟨dv, dir, reason, thruster⟩] := by
  unfold queueBurn
  split_ifs <;> simp

theorem queueBurn_appends (q : List FBurn) (dv : ℝ) (dir : Vec2)
    (reason : FReason) (thruster : Thruster) (h1 : dv > 0.2)
    (h2 : ∀ b ∈ q, b.reason ≠ reason) :
    queueBurn q dv dir reason thruster = q ++ [⟨dv, dir, reason, thruster⟩] := by
  unfold queueBurn
  rw [if_pos h1, if_neg]
  rintro ⟨b, hb, hr, _⟩
  exact h2 b hb hr

theorem dragStep_not_near (c : Ctrl2) (a m : ℝ) (P : Prop) (u : Vec2)
    (h : ¬ P) : dragStep c a m P u = c := by
  unfold dragStep
  rw [if_neg (by tauto)]

theorem dragStep_queue_cases (c : Ctrl2) (a m : ℝ) (P : Prop) (u : Vec2) :
    (dragStep c a m P u).burnQueue = c.burnQueue ∨
    ∃ d t, (dragStep c a m P u).burnQueue
      = c.burnQueue ++ [⟨d, u, .dragReboost d, t⟩] := by
  unfold dragStep
  split_ifs with h1 h2 h3
  · rcases queueBurn_cases c.burnQueue
      (calculateDragAcceleration a * (2 * Real.pi * Real.sqrt (m ^ 3 / mu)) * 0.7)
      u
      (.dragReboost (calculateDragAcceleration a
        * (2 * Real.pi * Real.sqrt (m ^ 3 / mu)) * 0.7))
      Thruster.chemical with h | h
    · left; exact h
    · right; exact ⟨_, Thruster.chemical, h⟩
  · rcases queueBurn_cases c.burnQueue
      (calculateDragAcceleration a * (2 * Real.pi * Real.sqrt (m ^ 3 / mu)) * 0.7)
      u
      (.dragReboost (calculateDragAcceleration a
        * (2 * Real.pi * Real.sqrt (m ^ 3 / mu)) * 0.7))
      Thruster.electric with h | h
    · left; exact h
    · right; exact ⟨_, Thruster.electric, h⟩
  · left; rfl
  · left; rfl

theorem dragStep_last (c : Ctrl2) (a m : ℝ) (P : Prop) (u : Vec2) :
    (dragStep c a m P u).lastBurnTime = c.lastBurnTime := by
  unfold dragStep
  split_ifs <;> rfl

theorem eccStep_queue_not_near (c : Ctrl2) (ecc warnV violV : ℝ) (A P : Prop)
    (pu ru : Vec2) (hA : ¬ A) (hP : ¬ P) :
    (eccStep c ecc warnV violV A P pu ru).burnQueue = c.burnQueue := by
  unfold eccStep
  split_ifs <;> first | rfl | exact absurd ‹A› hA | exact absurd ‹P› hP

theorem eccStep_appends (c : Ctrl2) (ecc warnV violV : ℝ) (A P : Prop)
    (pu ru : Vec2) (h1 : ecc > warnV * 0.8) (h2 : A ∨ P)
    (h3 : min (ecc * 2000) 12 > 0.2)
    (h4 : ∀ b ∈ c.burnQueue, ¬ isEccFix b.reason) :
    ∃ e : FBurn, (eccStep c ecc warnV violV A P pu ru).burnQueue
      = c.burnQueue ++ [e] ∧ isEccFix e.reason := by
  unfold eccStep
  by_cases hA : A
  · have happ := queueBurn_appends c.burnQueue (min (ecc * 2000) 12) ru
      (.eccFixRetro ecc) .electric h3
      (fun b hb hr => h4 b hb (by rw [hr]; trivial))
    refine ⟨⟨min (ecc * 2000) 12, ru, .eccFixRetro ecc, .electric⟩, ?_, trivial⟩
    rw [if_pos h1, if_pos hA]
    split_ifs <;> simpa using happ
  · have hP : P := h2.resolve_left hA
    have happ := queueBurn_appends c.burnQueue (min (ecc * 2000) 12) pu
      (.eccFixPro ecc) .electric h3
      (fun b hb hr => h4 b hb (by rw [hr]; trivial))
    refine ⟨⟨min (ecc * 2000) 12, pu, .eccFixPro ecc, .electric⟩, ?_, trivial⟩
    rw [if_pos h1, if_neg hA, if_pos hP]
    split_ifs <;> simpa using happ

theorem eccStep_last (c : Ctrl2) (ecc warnV violV : ℝ) (A P : Prop)
    (pu ru : Vec2) :
    (eccStep c ecc warnV violV A P pu ru).lastBurnTime = c.lastBurnTime := by
  unfold eccStep
  split_ifs <;> rfl

theorem smaStep_not_low (c : Ctrl2) (ecc warnV sma tr aw av : ℝ) (P A : Prop)
    (pu ru : Vec2) (h : ¬ (ecc < warnV * 1.2)) :
    smaStep c ecc warnV sma tr aw av P A pu ru = c := by
  unfold smaStep
  rw [if_neg h]

theorem smaStep_queue_not_near (c : Ctrl2) (ecc warnV sma tr aw av : ℝ)
    (P A : Prop) (pu ru : Vec2) (hP : ¬ P) (hA : ¬ A) :
    (smaStep c ecc warnV sma tr aw av P A pu ru).burnQueue = c.burnQueue := by
  unfold smaStep
  split_ifs with h1 h2 <;>
    first | rfl | exact absurd h2.2 (by tauto)

theorem molniyaStep_not_near (c : Ctrl2) (ecc sma te ts w : ℝ) (P : Prop)
    (pu ru : Vec2) (h : ¬ P) :
    molniyaStep c ecc sma te ts w P pu ru = c := by
  unfold molniyaStep
  rw [if_neg h]

theorem execStep_skip (c : Ctrl2) (t : ℝ) (v : Vec2)
    (h : ¬ (t - c.lastBurnTime > 120)) : execStep c t v = (c, none) := by
  unfold execStep
  rw [if_neg h]

theorem execStep_queue_cases (c : Ctrl2) (t : ℝ) (v : Vec2) :
    (execStep c t v).1.burnQueue = c.burnQueue ∨
    (execStep c t v).1.burnQueue = c.burnQueue.tail := by
  unfold execStep
  by_cases h : t - c.lastBurnTime > 120
  · rw [if_pos h]
    cases hq : c.burnQueue with
    | nil => left; exact hq
    | cons b rest => right; rfl
  · rw [if_neg h]
    left; rfl

end Final

/-! ### C10 theorems -/

/-- C10: when the controller is disabled, `update` returns `null`
immediately: the thruster callback is never invoked (second component
`none`) and the controller state — burn queue, log, rescue flag, last-burn
time, everything — is returned unchanged. -/
theorem update_disabled (c : Ctrl2) (s : OrbState) (cons : Constraints)
    (mass t : ℝ) (h : c.enabled = false) :
    Final.update c s cons mass t = (c, none) := by
  unfold Final.update
  rw [h]
  simp

/-- C10 witness: a concrete disabled controller is returned untouched and
fires nothing. -/
theorem update_disabled_witness :
    Final.update ⟨false, false, 0, [], [], 0⟩ ⟨⟨1, 0⟩, ⟨0, 1⟩⟩
      ⟨400, none, none, none, none⟩ 200 0 =
    (⟨false, false, 0, [], [], 0⟩, none) :=
  update_disabled _ _ _ _ _ rfl

/-! ### C5 theorems -/

/-- C5: while the controller is enabled, a correction burn is queued on a
tick only when the computed true anomaly lies within the fixed `0.15` rad
tolerance of `0` (perigee) or of `pi` (apogee): on any tick outside both
windows — whatever the altitude errors are — the burn queue gains nothing
(it is unchanged, or merely loses its head to the execution cadence). -/
theorem update_burns_only_in_window (c : Ctrl2) (s : OrbState)
    (cons : Constraints) (mass t : ℝ) (he : c.enabled = true)
    (hP : ¬ Final.nearPerigeeOf s c.argumentOfPerigee)
    (hA : ¬ Final.nearApogeeOf s c.argumentOfPerigee) :
    (Final.update c s cons mass t).1.burnQueue = c.burnQueue ∨
    (Final.update c s cons mass t).1.burnQueue = c.burnQueue.tail := by
  unfold Final.update
  rw [he, if_pos rfl]
  rw [Final.dragStep_not_near _ _ _ _ _ hP]
  by_cases hM : Final.isMolniyaOf cons
  · rw [if_pos hM, Final.molniyaStep_not_near _ _ _ _ _ _ _ _ _ hP]
    exact Final.execStep_queue_cases c t s.vel
  · rw [if_neg hM]
    have h1 : (Final.eccStep c (Final.getEccentricity s) (Final.eccWarnC cons)
        (Final.eccViolC cons) (Final.nearApogeeOf s c.argumentOfPerigee)
        (Final.nearPerigeeOf s c.argumentOfPerigee) (Final.progradeOf s)
        (Final.retrogradeOf s)).burnQueue = c.burnQueue :=
      Final.eccStep_queue_not_near _ _ _ _ _ _ _ _ hA hP
    have h2 : (Final.smaStep (Final.eccStep c (Final.getEccentricity s)
        (Final.eccWarnC cons) (Final.eccViolC cons)
        (Final.nearApogeeOf s c.argumentOfPerigee)
        (Final.nearPerigeeOf s c.argumentOfPerigee) (Final.progradeOf s)
        (Final.retrogradeOf s)) (Final.getEccentricity s)
        (Final.eccWarnC cons) (Final.getSMA s)
        (earthRadius + cons.targetAlt * 1000) (Final.altWarnC cons)
        (Final.altViolC cons) (Final.nearPerigeeOf s c.argumentOfPerigee)
        (Final.nearApogeeOf s c.argumentOfPerigee) (Final.progradeOf s)
        (Final.retrogradeOf s)).burnQueue = c.burnQueue := by
      rw [Final.smaStep_queue_not_near _ _ _ _ _ _ _ _ _ _ _ hP hA]
      exact h1
    rcases Final.execStep_queue_cases (Final.smaStep (Final.eccStep c
        (Final.getEccentricity s) (Final.eccWarnC cons) (Final.eccViolC cons)
        (Final.nearApogeeOf s c.argumentOfPerigee)
        (Final.nearPerigeeOf s c.argumentOfPerigee) (Final.progradeOf s)
        (Final.retrogradeOf s)) (Final.getEccentricity s)
        (Final.eccWarnC cons) (Final.getSMA s)
        (earthRadius + cons.targetAlt * 1000) (Final.altWarnC cons)
        (Final.altViolC cons) (Final.nearPerigeeOf s c.argumentOfPerigee)
        (Final.nearApogeeOf s c.argumentOfPerigee) (Final.progradeOf s)
        (Final.retrogradeOf s)) t s.vel with h | h
    · left; rw [h, h2]
    · right; rw [h, h2]

/-- C5 witness: at a concrete state whose true anomaly is `pi/2` (outside
both burn windows), an enabled controller's queue gains no burn. -/
theorem update_burns_only_in_window_witness :
    (Final.update ⟨true, false, 0, [], [], 0⟩ ⟨⟨0, 7e6⟩, ⟨7500, 0⟩⟩
        ⟨400, none, none, none, none⟩ 200 0).1.burnQueue = [] ∨
    (Final.update ⟨true, false, 0, [], [], 0⟩ ⟨⟨0, 7e6⟩, ⟨7500, 0⟩⟩
        ⟨400, none, none, none, none⟩ 200 0).1.burnQueue = List.tail [] := by
  have hpi_lo : (3.141592 : ℝ) < Real.pi := Real.pi_gt_3141592
  have hν : Final.computeTrueAnomaly ⟨0, 7e6⟩ 0 = Real.pi / 2 := by
    have harg : atan2 (7e6 : ℝ) 0 = Real.pi / 2 := by
      unfold atan2
      rw [Complex.arg_eq_pi_div_two_iff]
      constructor <;> norm_num
    unfold Final.computeTrueAnomaly
    rw [harg, sub_zero, if_neg (not_lt.mpr (by positivity))]
  have hP : ¬ Final.nearPerigeeOf ⟨⟨0, 7e6⟩, ⟨7500, 0⟩⟩ 0 := by
    unfold Final.nearPerigeeOf
    rw [hν]
    push_neg
    constructor
    · rw [abs_of_pos (by positivity)]
      linarith
    · rw [abs_of_nonpos (by linarith), neg_sub]
      linarith
  have hA : ¬ Final.nearApogeeOf ⟨⟨0, 7e6⟩, ⟨7500, 0⟩⟩ 0 := by
    unfold Final.nearApogeeOf
    rw [hν, abs_of_nonpos (by linarith), neg_sub]
    push_neg
    linarith
  exact update_burns_only_in_window ⟨true, false, 0, [], [], 0⟩
    ⟨⟨0, 7e6⟩, ⟨7500, 0⟩⟩ ⟨400, none, none, none, none⟩ 200 0 rfl hP hA

/-! ### C8 theorems -/

/-- C8: in a circular (non-Molniya) regime, on any tick in a burn window
where the eccentricity is above its warning band (and in particular above
the `warning * 1.2` band that gates SMA control), the controller queues an
eccentricity-correction burn, and no SMA/altitude burn is ever queued —
SMA correction is attempted only when eccentricity is already low. -/
theorem update_ecc_before_sma (c : Ctrl2) (s : OrbState) (cons : Constraints)
    (mass t : ℝ) (he : c.enabled = true) (hM : ¬ Final.isMolniyaOf cons)
    (hq : c.burnQueue = [])
    (hwin : Final.nearApogeeOf s c.argumentOfPerigee ∨
      Final.nearPerigeeOf s c.argumentOfPerigee)
    (hwarn : Final.getEccentricity s > Final.eccWarnC cons * 0.8)
    (hgate : ¬ (Final.getEccentricity s < Final.eccWarnC cons * 1.2))
    (hsize : min (Final.getEccentricity s * 2000) 12 > 0.2)
    (hpop : ¬ (t - c.lastBurnTime > 120)) :
    (∃ b ∈ (Final.update c s cons mass t).1.burnQueue,
      Final.isEccFix b.reason) ∧
    (∀ b ∈ (Final.update c s cons mass t).1.burnQueue,
      ¬ Final.isSmaFix b.reason) := by
  unfold Final.update
  rw [he, if_pos rfl, if_neg hM]
  set A := Final.dragStep c (Final.altitudeOf s) (Final.getSMA s)
    (Final.nearPerigeeOf s c.argumentOfPerigee) (Final.progradeOf s) with hA
  have hAq : ∀ b ∈ A.burnQueue,
      ¬ Final.isEccFix b.reason ∧ ¬ Final.isSmaFix b.reason := by
    rcases Final.dragStep_queue_cases c (Final.altitudeOf s) (Final.getSMA s)
      (Final.nearPerigeeOf s c.argumentOfPerigee) (Final.progradeOf s) with
      h | ⟨d, th, h⟩
    · rw [← hA, h, hq] at *
      intro b hb
      exact absurd hb (List.not_mem_nil b)
    · rw [← hA] at h
      intro b hb
      rw [h, hq, List.nil_append, List.mem_singleton] at hb
      subst hb
      exact ⟨by simp [Final.isEccFix], by simp [Final.isSmaFix]⟩
  have hAlast : A.lastBurnTime = c.lastBurnTime := by
    rw [hA]
    exact Final.dragStep_last _ _ _ _ _
  obtain ⟨e, heq, hEcc⟩ := Final.eccStep_appends A (Final.getEccentricity s)
    (Final.eccWarnC cons) (Final.eccViolC cons)
    (Final.nearApogeeOf s c.argumentOfPerigee)
    (Final.nearPerigeeOf s c.argumentOfPerigee)
    (Final.progradeOf s) (Final.retrogradeOf s)
    hwarn hwin hsize (fun b hb => (hAq b hb).1)
  set B := Final.eccStep A (Final.getEccentricity s) (Final.eccWarnC cons)
    (Final.eccViolC cons) (Final.nearApogeeOf s c.argumentOfPerigee)
    (Final.nearPerigeeOf s c.argumentOfPerigee) (Final.progradeOf s)
    (Final.retrogradeOf s) with hB
  rw [Final.smaStep_not_low _ _ _ _ _ _ _ _ _ _ _ hgate]
  have hBlast : B.lastBurnTime = c.lastBurnTime := by
    rw [hB, Final.eccStep_last]
    exact hAlast
  rw [Final.execStep_skip B t s.vel (by rw [hBlast]; exact hpop)]
  constructor
  · refine ⟨e, ?_, hEcc⟩
    show e ∈ B.burnQueue
    rw [heq]
    exact List.mem_append_right _ (List.mem_singleton_self e)
  · intro b hb
    rw [show ((B, (none : Option (ℝ × Thruster))).1.burnQueue) = B.burnQueue
      from rfl, heq] at hb
    rcases List.mem_append.mp hb with h | h
    · exact (hAq b h).2
    · rw [List.mem_singleton] at h
      subst h
      exact Final.isEccFix_not_smaFix _ hEcc

/-- C8 witness: a concrete enabled controller in a circular regime (warning
threshold `0.001`, violation `0.002`) at a perigee-window tick with high
derived eccentricity queues an eccentricity fix and no SMA fix. -/
theorem update_ecc_before_sma_witness :
    (∃ b ∈ (Final.update ⟨true, false, 0, [], [], 0⟩ ⟨⟨1e7, 0⟩, ⟨1000, 0⟩⟩
        ⟨400, none, none, some ⟨0.001, 0.002, 0.003⟩, none⟩ 200 0).1.burnQueue,
      Final.isEccFix b.reason) ∧
    (∀ b ∈ (Final.update ⟨true, false, 0, [], [], 0⟩ ⟨⟨1e7, 0⟩, ⟨1000, 0⟩⟩
        ⟨400, none, none, some ⟨0.001, 0.002, 0.003⟩, none⟩ 200 0).1.burnQueue,
      ¬ Final.isSmaFix b.reason) := by
  have hr : hypot (1e7 : ℝ) 0 = 1e7 := by
    unfold hypot
    rw [show (1e7 : ℝ) * 1e7 + 0 * 0 = 1e7 * 1e7 by ring]
    exact Real.sqrt_mul_self (by norm_num)
  have hE : energyOf ⟨⟨1e7, 0⟩, ⟨1000, 0⟩⟩ < 0 := by
    unfold energyOf
    simp only [hr]
    rw [mu]
    norm_num
  have hecc : Final.getEccentricity ⟨⟨1e7, 0⟩, ⟨1000, 0⟩⟩ = 1 := by
    unfold Final.getEccentricity
    rw [if_neg (not_le.mpr hE)]
    have hh : hOf ⟨⟨1e7, 0⟩, ⟨1000, 0⟩⟩ = 0 := by
      unfold hOf
      simp only
      norm_num
    rw [hh]
    rw [show (0 : ℝ) * 0 / mu = 0 by ring]
    rw [zero_div, sub_zero, max_eq_right zero_le_one, Real.sqrt_one]
  have hwarn : Final.eccWarnC ⟨400, none, none, some ⟨0.001, 0.002, 0.003⟩,
      none⟩ = 0.001 := by
    unfold Final.eccWarnC Final.jsOr
    norm_num
  have hν : Final.computeTrueAnomaly ⟨1e7, 0⟩ 0 = 0 := by
    have harg : atan2 (0 : ℝ) 1e7 = 0 := by
      unfold atan2
      rw [show (⟨1e7, 0⟩ : ℂ) = ((1e7 : ℝ) : ℂ) from
        Complex.ext (by simp) (by simp)]
      exact Complex.arg_ofReal_of_nonneg (by norm_num)
    unfold Final.computeTrueAnomaly
    rw [harg, sub_zero, if_neg (by norm_num)]
  apply update_ecc_before_sma
  · rfl
  · exact fun h => h
  · rfl
  · right
    unfold Final.nearPerigeeOf
    rw [hν]
    left
    norm_num
  · rw [hecc, hwarn]
    norm_num
  · rw [hecc, hwarn]
    norm_num
  · rw [hecc]
    exact lt_min (by norm_num) (by norm_num)
  · norm_num

/-! ## C4 — fuel-aware gating in the advanced controller -/

/-- Propellant kinds of the inventory object. -/
inductive PropKind where
  | hydrazine
  | xenon
  | biprop
deriving DecidableEq

/-- `propellantRemaining`: remaining mass (kg) per propellant kind. -/
def Inventory : Type := PropKind → ℝ

/-- Thruster type tags of the `selectBestThruster` table. -/
inductive TType where
  | hall_thruster
  | ion_thruster
  | chemical_monoprop
  | bipropMMH
deriving DecidableEq

/-- A row of the `selectBestThruster` table. -/
structure ThrusterSpec where
  ttype : TType
  Isp : ℝ
  propType : PropKind
  priority : ℕ

/-- The object returned by `checkFuelAvailable`. -/
structure FuelCheck where
  hasEnough : Prop
  propUsed : ℝ
  availableFuel : ℝ
  shortfall : ℝ

/-- The object returned by `selectBestThruster` (reason string omitted). -/
structure TChoice where
  thruster : Option ThrusterSpec
  propType : Option PropKind
  canExecute : Prop

/-- Log entries of the advanced controller relevant to the fuel gates,
abstracted to tags. -/
inductive AEvent where
  | cannotCircularize
  | cannotManeuver
  | noFuelDrag
  | smoothedNote (proposed smoothed : ℝ)
  | debounceNote
deriving DecidableEq

/-- The mutable fields of the advanced controller relevant to the fuel
gates: burn queue, rescue flag, warning-throttle timestamps (`none` for the
initial `undefined`), and the smoothing state. -/
structure ACtrl where
  enabled : Bool
  rescueMode : Bool
  lastBurnTime : ℝ
  burnQueue : List ABurn
  log : List AEvent
  lastFuelWarningTime : Option ℝ
  lastManeuverWarningTime : Option ℝ
  lastDragWarningTime : Option ℝ
  burnSmoothingBuffer : List (ℝ × ℝ)
  lastCorrectionTime : ℝ
  minCorrectionInterval : ℝ

namespace Advanced

/-- `logMessage` of the advanced controller on the abstracted log. -/
def logA (log : List AEvent) (e : AEvent) : List AEvent :=
  (e :: log).take 50

open Classical in
/-- `checkFuelAvailable(propellantRemaining, propType, deltaV, Isp,
currentMass)`: Tsiolkovsky fuel feasibility.  `currentMass || 200` is
modelled by treating `0` as absent. -/
def checkFuelAvailable (inv : Inventory) (propType : PropKind)
    (deltaV Isp currentMass : ℝ) : FuelCheck :=
  if inv propType ≤ 0 then
    ⟨False, 0, 0, if deltaV > 0 then 1000 else 0⟩
  else
    let m0 := if currentMass = 0 then 200 else currentMass
    let mf := m0 / Real.exp (|deltaV| / (Isp * 9.80665))
    ⟨m0 - mf ≤ inv propType, max (m0 - mf) 0.001, inv propType,
      max 0 (m0 - mf - inv propType)⟩

open Classical in
/-- The thruster table of `selectBestThruster`, with priorities depending on
`needsElectric`. -/
def thrusterTable (needsElectric : Prop) : List ThrusterSpec :=
  [⟨.hall_thruster, 1700, .xenon, if needsElectric then 1 else 2⟩,
   ⟨.ion_thruster, 3000, .xenon, if needsElectric then 1 else 2⟩,
   ⟨.chemical_monoprop, 235, .hydrazine, 1⟩,
   ⟨.bipropMMH, 320, .biprop, 2⟩]

open Classical in
/-- The `filter(t => fuel > 0)` step of `selectBestThruster`. -/
def filterFueled (inv : Inventory) : List ThrusterSpec → List ThrusterSpec
  | [] => []
  | th :: rest =>
    if 0 < inv th.propType then th :: filterFueled inv rest
    else filterFueled inv rest

/-- Stable insertion of an element after all queued elements of lower or
equal priority (JavaScript's stable `sort((a,b) => a.priority - b.priority)`). -/
def insAfter (x : ThrusterSpec) : List ThrusterSpec → List ThrusterSpec
  | [] => [x]
  | y :: ys =>
    if y.priority ≤ x.priority then y :: insAfter x ys else x :: y :: ys

/-- Stable sort by priority. -/
def sortByPriority (l : List ThrusterSpec) : List ThrusterSpec :=
  l.foldl (fun acc x => insAfter x acc) []

/-- `selectBestThruster(currentMass, propellantRemaining, deltaV,
needsElectric)`: filter to fueled thrusters, sort by priority, then check
fuel feasibility of the best candidate; with no fueled thruster at all
(`OUT OF FUEL`) the choice cannot execute. -/
def selectBestThruster (currentMass : ℝ) (inv : Inventory) (deltaV : ℝ)
    (needsElectric : Prop) : TChoice :=
  match sortByPriority (filterFueled inv (thrusterTable needsElectric)) with
  | [] => ⟨none, none, False⟩
  | sel :: _ =>
    ⟨some sel, some sel.propType,
      (checkFuelAvailable inv sel.propType deltaV sel.Isp currentMass).hasEnough⟩

/-- The thruster-kind tag passed to `queueBurn`
(`thrusterChoice.thruster.type`). -/
def thrusterTagOf (tc : TChoice) : ℕ :=
  match tc.thruster with
  | some th =>
    match th.ttype with
    | .hall_thruster => 0
    | .ion_thruster => 1
    | .chemical_monoprop => 2
    | .bipropMMH => 3
  | none => 4

open Classical in
/-- The throttle test `!this._lastT || missionTime - this._lastT > window`:
`none` models `undefined`, and a stored time of `0` is falsy in JavaScript,
so it also opens the throttle. -/
def throttleOpen (last : Option ℝ) (missionTime window : ℝ) : Prop :=
  match last with
  | none => True
  | some v => v = 0 ∨ missionTime - v > window

open Classical in
/-- The `filter(b => now - b.timestamp < 300)` step of the smoothing buffer. -/
def filterRecent (now : ℝ) : List (ℝ × ℝ) → List (ℝ × ℝ)
  | [] => []
  | b :: rest =>
    if now - b.2 < 300 then b :: filterRecent now rest
    else filterRecent now rest

open Classical in
/-- `smoothBurnCorrection(proposedDV, ...)`: debounce against the minimum
correction interval, push `|proposedDV|` into the smoothing buffer, drop
entries older than 300 s, average with the last three proposals when the
buffer holds more than two, and reject corrections below `0.1` m/s.  The
wall-clock `performance.now() / 1000` is the explicit input `now`.  Returns
the updated controller, `shouldBurn`, and `smoothedDV`. -/
def smoothBurnCorrection (c : ACtrl) (proposedDV now : ℝ) :
    ACtrl × Bool × ℝ :=
  if now - c.lastCorrectionTime < c.minCorrectionInterval then (c, false, 0)
  else
    let buf := filterRecent now (c.burnSmoothingBuffer ++ [(|proposedDV|, now)])
    let smoothedDV :=
      if 2 < buf.length then
        (|proposedDV| + ((buf.drop (buf.length - 3)).map Prod.fst).sum / 3 * 2) / 3
      else |proposedDV|
    let c1 := { c with
      burnSmoothingBuffer := buf
      log := if 2 < buf.length then
          logA c.log (.smoothedNote |proposedDV| smoothedDV)
        else c.log }
    if smoothedDV < 0.1 then (c1, false, 0)
    else ({ c1 with lastCorrectionTime := now }, true, smoothedDV)

open Classical in
/-- The eccentricity-correction block of the advanced controller's `update`
with fuel gating: when the selected thruster cannot execute the planned
`min(ecc*2000, 12)` burn, no burn is enqueued — a throttled (30 s) warning
is logged and the rescue flag is set; otherwise the smoothed correction is
queued in a burn window. -/
def eccFuelGate (c : ACtrl) (inv : Inventory)
    (currentMass missionTime now ecc warnV violV : ℝ)
    (nearApogee nearPerigee : Prop)
    (progradeUnit retrogradeUnit : Vec2) : ACtrl :=
  if ecc > warnV * 0.8 then
    let c1 :=
      if ¬ (selectBestThruster currentMass inv
          (min (ecc * 2000) 12) False).canExecute then
        let c2 :=
          if throttleOpen c.lastFuelWarningTime missionTime 30 then
            { c with
              log := logA c.log .cannotCircularize
              lastFuelWarningTime := some missionTime }
          else c
        { c2 with rescueMode := true }
      else
        if nearApogee then
          let sm := smoothBurnCorrection c (min (ecc * 2000) 12) now
          if sm.2.1 then
            { sm.1 with
              burnQueue := queueBurn sm.1.burnQueue sm.2.2 retrogradeUnit
                (10, some ecc)
                (thrusterTagOf (selectBestThruster currentMass inv
                  (min (ecc * 2000) 12) False)) }
          else { sm.1 with log := logA sm.1.log .debounceNote }
        else if nearPerigee then
          let sm := smoothBurnCorrection c (min (ecc * 2000) 12) now
          if sm.2.1 then
            { sm.1 with
              burnQueue := queueBurn sm.1.burnQueue sm.2.2 progradeUnit
                (11, some ecc)
                (thrusterTagOf (selectBestThruster currentMass inv
                  (min (ecc * 2000) 12) False)) }
          else sm.1
        else c
    if ecc > violV then { c1 with rescueMode := true } else c1
  else { c with rescueMode := false }

open Classical in
/-- The drag-reboost block of the advanced controller's `update` with fuel
gating: on insufficient fuel it logs a throttled (60 s) warning but — unlike
the eccentricity and SMA gates — does *not* set the rescue flag.  The drag
model of this controller is identical to the final controller's
`calculateDragAcceleration`. -/
def dragFuelGate (c : ACtrl) (inv : Inventory)
    (currentMass missionTime now altitude sma : ℝ)
    (nearPerigee : Prop) (progradeUnit : Vec2) : ACtrl :=
  if Final.calculateDragAcceleration altitude > 1e-10 ∧ nearPerigee then
    if Final.calculateDragAcceleration altitude
        * (2 * Real.pi * Real.sqrt (sma ^ 3 / mu)) * 0.7 > 0.1 then
      if (selectBestThruster currentMass inv
          (Final.calculateDragAcceleration altitude
            * (2 * Real.pi * Real.sqrt (sma ^ 3 / mu)) * 0.7)
          (altitude < 1000)).canExecute then
        let sm := smoothBurnCorrection c
          (Final.calculateDragAcceleration altitude
            * (2 * Real.pi * Real.sqrt (sma ^ 3 / mu)) * 0.7) now
        if sm.2.1 then
          { sm.1 with
            burnQueue := queueBurn sm.1.burnQueue sm.2.2 progradeUnit
              (12, some sm.2.2)
              (thrusterTagOf (selectBestThruster currentMass inv
                (Final.calculateDragAcceleration altitude
                  * (2 * Real.pi * Real.sqrt (sma ^ 3 / mu)) * 0.7)
                (altitude < 1000))) }
        else sm.1
      else
        if throttleOpen c.lastDragWarningTime missionTime 60 then
          { c with
            log := logA c.log .noFuelDrag
            lastDragWarningTime := some missionTime }
        else c
    else c
  else c

/-- An inventory with no propellant of any kind yields a thruster choice
that cannot execute. -/
theorem selectBestThruster_empty (currentMass : ℝ) (inv : Inventory)
    (deltaV : ℝ) (needsElectric : Prop) (h : ∀ k, inv k ≤ 0) :
    ¬ (selectBestThruster currentMass inv deltaV needsElectric).canExecute := by
  unfold selectBestThruster
  have step : ∀ (th : ThrusterSpec) (rest : List ThrusterSpec),
      filterFueled inv (th :: rest) = filterFueled inv rest := by
    intro th rest
    rw [show filterFueled inv (th :: rest)
        = if 0 < inv th.propType then th :: filterFueled inv rest
          else filterFueled inv rest from rfl,
      if_neg (not_lt.mpr (h th.propType))]
  have hf : filterFueled inv (thrusterTable needsElectric) = [] := by
    unfold thrusterTable
    rw [step, step, step, step]
    rfl
  rw [hf]
  exact fun hc => hc

/-- Behaviour of the eccentricity fuel gate on one call with insufficient
fuel: queue untouched, rescue flag set, warning logged and timestamped
exactly when the throttle is open. -/
theorem eccFuelGate_insufficient_aux (c : ACtrl) (inv : Inventory)
    (mass t now ecc warnV violV : ℝ) (A P : Prop) (pu ru : Vec2)
    (hwarn : ecc > warnV * 0.8)
    (hfuel : ¬ (selectBestThruster mass inv
      (min (ecc * 2000) 12) False).canExecute) :
    (eccFuelGate c inv mass t now ecc warnV violV A P pu ru).burnQueue
      = c.burnQueue ∧
    (eccFuelGate c inv mass t now ecc warnV violV A P pu ru).rescueMode
      = true ∧
    (throttleOpen c.lastFuelWarningTime t 30 →
      (eccFuelGate c inv mass t now ecc warnV violV A P pu ru).log
        = logA c.log .cannotCircularize ∧
      (eccFuelGate c inv mass t now ecc warnV violV A P pu ru).lastFuelWarningTime
        = some t) ∧
    (¬ throttleOpen c.lastFuelWarningTime t 30 →
      (eccFuelGate c inv mass t now ecc warnV violV A P pu ru).log = c.log ∧
      (eccFuelGate c inv mass t now ecc warnV violV A P pu ru).lastFuelWarningTime
        = c.lastFuelWarningTime) := by
  unfold eccFuelGate
  rw [if_pos hwarn, if_pos hfuel]
  by_cases hth : throttleOpen c.lastFuelWarningTime t 30
  · rw [if_pos hth]
    split_ifs <;> exact ⟨rfl, rfl, fun _ => ⟨rfl, rfl⟩, fun hn => absurd hth hn⟩
  · rw [if_neg hth]
    split_ifs <;> exact ⟨rfl, rfl, fun hp => absurd hp hth, fun _ => ⟨rfl, rfl⟩⟩

end Advanced

/-! ### C4 theorems -/

/-- C4, counterexample: for the planned drag-reboost correction with an
all-empty propellant inventory (fuel check insufficient), the gate logs a
throttled warning and enqueues nothing — but, contrary to the claim, the
rescue flag is *not* set. -/
theorem dragGate_insufficient_no_rescue :
    (Advanced.dragFuelGate ⟨true, false, 0, [], [], none, none, none, [], 0, 30⟩
        (fun _ => 0) 200 1000 0 100 7e6 True ⟨1, 0⟩).rescueMode = false ∧
    (Advanced.dragFuelGate ⟨true, false, 0, [], [], none, none, none, [], 0, 30⟩
        (fun _ => 0) 200 1000 0 100 7e6 True ⟨1, 0⟩).burnQueue = [] ∧
    (Advanced.dragFuelGate ⟨true, false, 0, [], [], none, none, none, [], 0, 30⟩
        (fun _ => 0) 200 1000 0 100 7e6 True ⟨1, 0⟩).log
      = Advanced.logA [] .noFuelDrag := by
  have hdrag : Final.calculateDragAcceleration 100 = 0.5 := by
    unfold Final.calculateDragAcceleration
    rw [if_pos (by norm_num : (100 : ℝ) < 150)]
  have hsq : (1 : ℝ) ≤ Real.sqrt ((7e6 : ℝ) ^ 3 / mu) := by
    have h1 : Real.sqrt 1 ≤ Real.sqrt ((7e6 : ℝ) ^ 3 / mu) := by
      apply Real.sqrt_le_sqrt
      rw [mu]
      norm_num
    rwa [Real.sqrt_one] at h1
  have hdv : (0.5 : ℝ) * (2 * Real.pi * Real.sqrt ((7e6 : ℝ) ^ 3 / mu)) * 0.7
      > 0.1 := by
    nlinarith [Real.pi_gt_3141592, hsq]
  unfold Advanced.dragFuelGate
  rw [hdrag]
  rw [if_pos (show (0.5 : ℝ) > 1e-10 ∧ True from ⟨by norm_num, trivial⟩)]
  rw [if_pos hdv]
  rw [if_neg (Advanced.selectBestThruster_empty 200 (fun _ => 0)
    (0.5 * (2 * Real.pi * Real.sqrt ((7e6 : ℝ) ^ 3 / mu)) * 0.7)
    ((100 : ℝ) < 1000) (fun _ => le_refl 0))]
  rw [if_pos (show Advanced.throttleOpen none 1000 60 from trivial)]
  exact ⟨rfl, rfl, rfl⟩

/-- C4 (amended): for the planned eccentricity correction, an insufficient
fuel check means no burn is enqueued, the rescue flag is set, and the
warning is logged at most once per 30-second throttle window (assuming the
first warning is raised at a mission time `> 0`; a timestamp of exactly `0`
is falsy in JavaScript and would re-open the throttle).  The drag-reboost
gate behaves the same except that it does not set the rescue flag. -/
theorem eccFuelGate_insufficient (c : ACtrl) (inv : Inventory)
    (mass t now ecc warnV violV : ℝ) (A P : Prop) (pu ru : Vec2)
    (hwarn : ecc > warnV * 0.8)
    (hfuel : ¬ (Advanced.selectBestThruster mass inv
      (min (ecc * 2000) 12) False).canExecute) :
    (Advanced.eccFuelGate c inv mass t now ecc warnV violV A P pu ru).burnQueue
      = c.burnQueue ∧
    (Advanced.eccFuelGate c inv mass t now ecc warnV violV A P pu ru).rescueMode
      = true ∧
    (Advanced.throttleOpen c.lastFuelWarningTime t 30 →
      (Advanced.eccFuelGate c inv mass t now ecc warnV violV A P pu ru).log
        = Advanced.logA c.log .cannotCircularize) ∧
    (¬ Advanced.throttleOpen c.lastFuelWarningTime t 30 →
      (Advanced.eccFuelGate c inv mass t now ecc warnV violV A P pu ru).log
        = c.log) ∧
    (0 < t → Advanced.throttleOpen c.lastFuelWarningTime t 30 →
      ∀ t2, t2 - t ≤ 30 →
        (Advanced.eccFuelGate
          (Advanced.eccFuelGate c inv mass t now ecc warnV violV A P pu ru)
          inv mass t2 now ecc warnV violV A P pu ru).log
        = (Advanced.eccFuelGate c inv mass t now ecc warnV violV
            A P pu ru).log) := by
  obtain ⟨hq, hr, hopen, hclosed⟩ :=
    Advanced.eccFuelGate_insufficient_aux c inv mass t now ecc warnV violV
      A P pu ru hwarn hfuel
  refine ⟨hq, hr, fun h => (hopen h).1, fun h => (hclosed h).1, ?_⟩
  intro ht hth t2 ht2
  obtain ⟨hq2, hr2, hopen2, hclosed2⟩ :=
    Advanced.eccFuelGate_insufficient_aux
      (Advanced.eccFuelGate c inv mass t now ecc warnV violV A P pu ru)
      inv mass t2 now ecc warnV violV A P pu ru hwarn hfuel
  apply (hclosed2 ?_).1
  rw [(hopen hth).2]
  intro hcon
  have hcon2 : t = 0 ∨ t2 - t > 30 := hcon
  rcases hcon2 with h0 | hgt
  · exact absurd h0 (ne_of_gt ht)
  · linarith

/-- C4 witness: with a concrete zero inventory and an eccentricity of
`0.004` above the `0.001` warning threshold, the gate at mission time `10`
leaves the queue empty, sets the rescue flag, logs the warning once, and a
second call at mission time `20` (inside the 30-second window) logs
nothing. -/
theorem eccFuelGate_insufficient_witness :
    (Advanced.eccFuelGate ⟨true, false, 0, [], [], none, none, none, [], 0, 30⟩
        (fun _ => 0) 200 10 0 0.004 0.001 0.002 False False ⟨1, 0⟩
        ⟨-1, 0⟩).burnQueue = [] ∧
    (Advanced.eccFuelGate ⟨true, false, 0, [], [], none, none, none, [], 0, 30⟩
        (fun _ => 0) 200 10 0 0.004 0.001 0.002 False False ⟨1, 0⟩
        ⟨-1, 0⟩).rescueMode = true ∧
    (Advanced.throttleOpen none 10 30 →
      (Advanced.eccFuelGate ⟨true, false, 0, [], [], none, none, none, [], 0,
          30⟩ (fun _ => 0) 200 10 0 0.004 0.001 0.002 False False ⟨1, 0⟩
          ⟨-1, 0⟩).log = Advanced.logA [] .cannotCircularize) ∧
    (¬ Advanced.throttleOpen none 10 30 →
      (Advanced.eccFuelGate ⟨true, false, 0, [], [], none, none, none, [], 0,
          30⟩ (fun _ => 0) 200 10 0 0.004 0.001 0.002 False False ⟨1, 0⟩
          ⟨-1, 0⟩).log = []) ∧
    ((0 : ℝ) < 10 → Advanced.throttleOpen none 10 30 →
      ∀ t2, t2 - 10 ≤ 30 →
        (Advanced.eccFuelGate
          (Advanced.eccFuelGate ⟨true, false, 0, [], [], none, none, none,
            [], 0, 30⟩ (fun _ => 0) 200 10 0 0.004 0.001 0.002 False False
            ⟨1, 0⟩ ⟨-1, 0⟩)
          (fun _ => 0) 200 t2 0 0.004 0.001 0.002 False False ⟨1, 0⟩
          ⟨-1, 0⟩).log
        = (Advanced.eccFuelGate ⟨true, false, 0, [], [], none, none, none,
            [], 0, 30⟩ (fun _ => 0) 200 10 0 0.004 0.001 0.002 False False
            ⟨1, 0⟩ ⟨-1, 0⟩).log) :=
  eccFuelGate_insufficient ⟨true, false, 0, [], [], none, none, none, [], 0,
    30⟩ (fun _ => 0) 200 10 0 0.004 0.001 0.002 False False ⟨1, 0⟩ ⟨-1, 0⟩
    (by norm_num)
    (Advanced.selectBestThruster_empty 200 (fun _ => 0)
      (min (0.004 * 2000) 12) False (fun _ => le_refl 0))

end Orbit
